import Mathlib

/-!
# Verification of the arbitrage bot's decision pipeline

Shallow embedding of the core algorithms of the `mev_arbitrage_bot`
repository (price consensus, strategy engine, gas pricing, transaction
lifecycle, block feed), with theorems checking the natural-language
specification's claims against the embedded code.

Numeric conventions: Rust `f64` arithmetic is modelled by exact rational
arithmetic (`ℚ`); `U256`/`u64` values are modelled by `Nat` with explicit
saturation (`min · (2^256 - 1)`) or wrap-around (`% 2^64`) where the source
uses `saturating_*` operations or plain machine multiplication.
-/

/-- `U256::MAX` as a natural number. -/
def U256MAX : Nat := 2 ^ 256 - 1

/-- `U256::saturating_mul`. -/
def satMul (a b : Nat) : Nat := min (a * b) U256MAX

/-- `U256::saturating_add`. -/
def satAdd (a b : Nat) : Nat := min (a + b) U256MAX

/-! ## Price Consensus Cache (`src/price/mod.rs`) -/

/-- Embeds `PriceOracle::calculate_median_price` (price/mod.rs:216-230):
sort the samples ascending, return the middle element for an odd count and
the mean of the two middle elements for an even count; `None` on an empty
input. -/
def calculate_median_price (prices : List ℚ) : Option ℚ :=
  if prices = [] then none
  else
    let sorted_prices := prices.insertionSort (· ≤ ·)
    let mid := sorted_prices.length / 2
    if sorted_prices.length % 2 = 0 then
      some ((sorted_prices.getD (mid - 1) 0 + sorted_prices.getD mid 0) / 2)
    else
      some (sorted_prices.getD mid 0)

/-- Embeds `PriceOracle::is_price_within_deviation` (price/mod.rs:233-236):
a sample survives when its absolute percentage deviation from the median is
at most `max_price_deviation`. -/
def is_price_within_deviation (max_price_deviation price median : ℚ) : Bool :=
  decide (|price - median| / median * 100 ≤ max_price_deviation)

/-- Embeds the per-token consensus computation inside
`PriceOracle::update_prices` (price/mod.rs:317-332): take the median of the
sampled prices, drop samples outside the deviation window, and average the
survivors; when every sample was dropped, fall back to the median. `none`
when no source returned a sample. -/
def consensus_price (max_price_deviation : ℚ) (samples : List ℚ) : Option ℚ :=
  match calculate_median_price samples with
  | none => none
  | some median_price =>
      let filtered_prices :=
        samples.filter (fun p => is_price_within_deviation max_price_deviation p median_price)
      some (if filtered_prices = [] then median_price
            else filtered_prices.sum / (filtered_prices.length : ℚ))

/-- Embeds `PriceOracle::get_price_in_token` (price/mod.rs:273-284) as a
function of the two fetched USD prices: error exactly on a zero
denominator, otherwise the ratio of the USD prices. -/
def get_price_in_token (base_price_usd quote_price_usd : ℚ) : Except String ℚ :=
  if quote_price_usd = 0 then Except.error "Quote token price is zero"
  else Except.ok (base_price_usd / quote_price_usd)

/-! ## Opportunity data model (`src/scanner/mod.rs`) and Strategy Engine
(`src/strategy/mod.rs`) -/

/-- Embeds `ArbitrageOpportunity` (scanner/mod.rs:21-51); addresses are
modelled as naturals, USD figures as rationals. -/
structure ArbitrageOpportunity where
  id : String
  timestamp : Nat
  source_dex : String
  target_dex : String
  token_path : List Nat
  estimated_profit : ℚ
  required_loan_amount : ℚ
  estimated_gas_cost : ℚ
  net_profit : ℚ
  confidence_score : Nat
deriving DecidableEq, Repr

/-- Embeds the gas re-estimate inside `evaluate_opportunities`
(strategy/mod.rs:138-142): $0.005 for a token path of length 3, $0.008 for
length 4, $0.012 otherwise. -/
def evaluation_gas_estimate (token_path_len : Nat) : ℚ :=
  if token_path_len = 3 then 5 / 1000
  else if token_path_len = 4 then 8 / 1000
  else 12 / 1000

/-- Embeds the per-opportunity update inside `evaluate_opportunities`
(strategy/mod.rs:136-147): overwrite `estimated_gas_cost` with the
path-length-based estimate and recompute `net_profit` from
`estimated_profit`. -/
def adjust_opportunity (op : ArbitrageOpportunity) : ArbitrageOpportunity :=
  let estimated_gas := evaluation_gas_estimate op.token_path.length
  { op with estimated_gas_cost := estimated_gas,
            net_profit := op.estimated_profit - estimated_gas }

/-- The comparator used by the descending sort in `evaluate_opportunities`
(strategy/mod.rs:160-164): `a` precedes `b` when `b.net_profit ≤
a.net_profit`. -/
def net_profit_ge (a b : ArbitrageOpportunity) : Prop :=
  b.net_profit ≤ a.net_profit

instance : DecidableRel net_profit_ge :=
  fun a b => inferInstanceAs (Decidable (b.net_profit ≤ a.net_profit))

instance : IsTotal ArbitrageOpportunity net_profit_ge :=
  ⟨fun a b => le_total b.net_profit a.net_profit⟩

instance : IsTrans ArbitrageOpportunity net_profit_ge :=
  ⟨fun _ _ _ h1 h2 => le_trans h2 h1⟩

/-- Embeds `StrategyEngineImpl::evaluate_opportunities`
(strategy/mod.rs:115-177): drop opportunities at or below the minimum
profit threshold, recompute gas and net profit for the survivors, drop
those that fall back to or below the threshold, stably sort the remainder
by descending net profit and return the first element. Rust's stable
`sort_by` is modelled by `List.insertionSort`, which is also stable. -/
def evaluate_opportunities (min_profit_threshold : ℚ)
    (opportunities : List ArbitrageOpportunity) : Option ArbitrageOpportunity :=
  if opportunities.isEmpty then none
  else
    let profitable_opportunities :=
      opportunities.filter (fun op => decide (min_profit_threshold < op.net_profit))
    if profitable_opportunities.isEmpty then none
    else
      let evaluated_opportunities :=
        (profitable_opportunities.map adjust_opportunity).filter
          (fun op => decide (min_profit_threshold < op.net_profit))
      if evaluated_opportunities.isEmpty then none
      else (evaluated_opportunities.insertionSort net_profit_ge).head?

/-- The opportunities surviving both threshold filters of
`evaluate_opportunities`: the initial filter, the gas/net-profit
recomputation, and the post-recomputation filter. -/
def surviving_opportunities (min_profit_threshold : ℚ)
    (opportunities : List ArbitrageOpportunity) : List ArbitrageOpportunity :=
  ((opportunities.filter (fun op => decide (min_profit_threshold < op.net_profit))).map
      adjust_opportunity).filter
    (fun op => decide (min_profit_threshold < op.net_profit))

/-- A concrete opportunity used to instantiate the strategy-engine
theorems. -/
def sample_opportunity : ArbitrageOpportunity :=
  { id := "WETH-USDC-uniswap-sushiswap"
    timestamp := 1
    source_dex := "uniswap"
    target_dex := "sushiswap"
    token_path := [1, 2, 1]
    estimated_profit := 10
    required_loan_amount := 1000
    estimated_gas_cost := 1 / 100
    net_profit := 10
    confidence_score := 80 }

/-! ## Strategy Engine profit estimation (`src/strategy/mod.rs`) -/

/-- DEX kinds (`src/dex/mod.rs`). -/
inductive DexType
  | UniswapV2
  | Sushiswap
  | Curve
deriving DecidableEq, Repr

/-- The per-DEX gas surcharge inside `estimate_gas_cost`
(strategy/mod.rs:97-104). -/
def per_dex_gas (d : DexType) : ℚ :=
  match d with
  | .UniswapV2 => 1 / 1000
  | .Sushiswap => 1 / 1000
  | .Curve => 2 / 1000

/-- Embeds `StrategyEngineImpl::estimate_gas_cost` (strategy/mod.rs:82-110):
a $0.005 base cost, plus a path-length surcharge ($0.001 for a direct
2-token path, $0.002 for 3 tokens, $0.004 otherwise), plus per-DEX costs,
all scaled by the fixed 1.2 multiplier. -/
def estimate_gas_cost (path_length : Nat) (dex_types : List DexType) : ℚ :=
  (5 / 1000 +
    (if path_length = 2 then 1 / 1000
     else if path_length = 3 then 2 / 1000
     else 4 / 1000) +
    (dex_types.map per_dex_gas).sum) * (12 / 10)

/-- The capabilities `calculate_expected_profit` consumes: token decimals
lookup, USD price lookup (`PriceOracle::get_price_usd`), and the best-quote
fan-out (`DexInterfaces::find_best_quote`, returning an output amount and
the DEX used). `none` models the fallible calls' error/absence cases. -/
structure ProfitEnv where
  decimals : Nat → Nat
  price_usd : Nat → Option ℚ
  find_best_quote : Nat → Nat → Nat → Option (Nat × DexType)

/-- Model of `ethers::utils::parse_units`: converts a nonnegative decimal
amount into integer base units; fails on a negative amount. -/
def parse_units (amount : ℚ) (decimals : Nat) : Option Nat :=
  if amount < 0 then none
  else some ⌊amount * 10 ^ decimals⌋.toNat

/-- Model of `ethers::utils::format_units` composed with `parse::<f64>()`:
integer base units back to a decimal amount. -/
def format_units (n : Nat) (decimals : Nat) : ℚ := (n : ℚ) / 10 ^ decimals

/-- The hop-simulation loop of `calculate_expected_profit`
(strategy/mod.rs:286-322): thread the amount through the best quote of
each adjacent token pair, recording the DEX used per hop; fails when any
hop has no quote. -/
def simulate_hops (quote : Nat → Nat → Nat → Option (Nat × DexType)) :
    Nat → List Nat → Option (Nat × List DexType)
  | amt, [] => some (amt, [])
  | amt, [_] => some (amt, [])
  | amt, token_in :: token_out :: rest =>
      match quote token_in token_out amt with
      | none => none
      | some (output_amount, dex) =>
          match simulate_hops quote output_amount (token_out :: rest) with
          | none => none
          | some (final_amount, dex_used) => some (final_amount, dex :: dex_used)

/-- The tail of `calculate_expected_profit` (strategy/mod.rs:369-389):
re-fetch the start token's USD price, convert the token-denominated profit
to USD, subtract the gas estimate, and clamp the net profit at zero. The
`2^128` guard models `U256::as_u128`, which is only defined below that
bound. -/
def finish_profit (env : ProfitEnv) (from_token from_token_decimals : Nat)
    (profit_in_token : Nat) (gas_cost : ℚ) : Option ℚ :=
  match env.price_usd from_token with
  | none => none
  | some from_token_price =>
      if 2 ^ 128 ≤ profit_in_token then none
      else
        let profit_f64 := format_units profit_in_token from_token_decimals
        let profit_usd := profit_f64 * from_token_price
        let net_profit := profit_usd - gas_cost
        some (if 0 < net_profit then net_profit else 0)

/-- Embeds `StrategyEngineImpl::calculate_expected_profit`
(strategy/mod.rs:274-389): reject paths shorter than 2 tokens, convert the
input amount to base units, simulate the hops, compute the
token-denominated profit (direct difference for a circular path, USD-value
difference converted back otherwise, in both cases early-returning 0 when
the trade does not gain), then convert to USD, subtract the modeled gas
cost and clamp at zero. -/
def calculate_expected_profit (env : ProfitEnv) (path : List Nat) (amount : ℚ) :
    Option ℚ :=
  if path.length < 2 then none
  else
    let from_token := path.headI
    let from_token_decimals := env.decimals from_token
    match parse_units amount from_token_decimals with
    | none => none
    | some input_amount =>
        match simulate_hops env.find_best_quote input_amount path with
        | none => none
        | some (current_amount, dex_used) =>
            if path.headI = path.getLastD 0 then
              if input_amount < current_amount then
                finish_profit env from_token from_token_decimals
                  (current_amount - input_amount)
                  (estimate_gas_cost path.length dex_used)
              else some 0
            else
              match env.price_usd (path.getLastD 0), env.price_usd from_token with
              | some final_token_price, some from_token_price =>
                  if from_token_price ≤ 0 then none
                  else if 2 ^ 128 ≤ current_amount then none
                  else
                    let final_amount_f64 :=
                      format_units current_amount (env.decimals (path.getLastD 0))
                    let final_value_usd := final_amount_f64 * final_token_price
                    let initial_value_usd := amount * from_token_price
                    if initial_value_usd < final_value_usd then
                      let profit_usd := final_value_usd - initial_value_usd
                      let profit_in_from_token := profit_usd / from_token_price
                      match parse_units profit_in_from_token from_token_decimals with
                      | none => none
                      | some profit_in_token =>
                          finish_profit env from_token from_token_decimals
                            profit_in_token (estimate_gas_cost path.length dex_used)
                    else some 0
              | _, _ => none

/-- A concrete environment used to instantiate the profit-estimation
theorems: zero-decimal tokens, every USD price 1, and an identity quote on
Uniswap V2. -/
def sample_env : ProfitEnv :=
  { decimals := fun _ => 0
    price_usd := fun _ => some 1
    find_best_quote := fun _ _ amt => some (amt, DexType.UniswapV2) }

/-! ## Block Event Feed (`src/blockchain/listener.rs`) -/

/-- Embeds the HTTP-polling fallback loop of
`BlockchainEventListenerImpl::start` (listener.rs:190-223): given the
previous `last_block_number` and the successively polled chain heights,
a height is sent to the processing task only when it strictly exceeds the
last sent one. -/
def poll_emit : Nat → List Nat → List Nat
  | _, [] => []
  | last_block_number, block_number :: rest =>
      if last_block_number < block_number then
        block_number :: poll_emit block_number rest
      else
        poll_emit last_block_number rest

/-- Embeds the push-subscription paths of `start` (listener.rs:147-188):
every block arriving on the subscription stream is forwarded to the
processing task as `block.number.unwrap_or_default()`, with no
deduplication or ordering check; the bounded channel and the single
consumer preserve arrival order. -/
def push_emit (blocks : List (Option Nat)) : List Nat :=
  blocks.map (fun b => b.getD 0)

/-! ## Gas Price Optimizer (`src/gas/mod.rs`) -/

/-- `GasStrategy` (config.rs:207). -/
inductive GasStrategy
  | Fixed
  | Eip1559
  | Dynamic
deriving DecidableEq, Repr

/-- The cached fee fields of `GasOptimizerImpl` (gas/mod.rs:31-38). -/
structure GasState where
  current_gas_price : Nat
  current_base_fee : Nat
  current_priority_fee : Nat

/-- The configured ceiling in wei (gas/mod.rs:73, 90, 100):
`U256::from(max_gas_price * 1_000_000_000)` where `max_gas_price : u64` is
in gwei; the `u64` multiplication wraps modulo `2^64`. -/
def max_gas_price_wei (max_gas_price_gwei : Nat) : Nat :=
  max_gas_price_gwei * 1000000000 % 2 ^ 64

/-- The EIP-1559 max-fee computation (gas/mod.rs:81-87):
`base_fee.saturating_mul(mult100) / 100` saturating-added to
`priority_fee`, where `mult100` is `(base_fee_multiplier * 100.0) as u64`
from the configuration. -/
def eip1559_max_fee (base_fee priority_fee multiplier100 : Nat) : Nat :=
  satAdd (satMul base_fee multiplier100 / 100) priority_fee

/-- Embeds `GasOptimizerImpl::get_optimal_gas_price` (gas/mod.rs:62-106)
as a function of the configured strategy, the configured ceiling and
multiplier, and the cached fee state. -/
def get_optimal_gas_price (strategy : GasStrategy)
    (max_gas_price_gwei multiplier100 : Nat) (st : GasState) : Nat :=
  match strategy with
  | .Fixed => max_gas_price_wei max_gas_price_gwei
  | .Eip1559 =>
      min (eip1559_max_fee st.current_base_fee st.current_priority_fee multiplier100)
        (max_gas_price_wei max_gas_price_gwei)
  | .Dynamic => min st.current_gas_price (max_gas_price_wei max_gas_price_gwei)

/-! ## Transaction lifecycle (`src/transaction/mod.rs`, `executor.rs`) -/

/-- `ethers::TransactionRequest`: the fields the structural-validation
claim is about; both are optional in the request object. -/
structure TransactionRequest where
  to_addr : Option Nat
  gas : Option Nat
deriving DecidableEq, Repr

/-- Embeds `ArbitrageTransaction` (transaction/mod.rs:19-46). -/
structure ArbitrageTransaction where
  request : TransactionRequest
  estimated_gas : Nat
  estimated_gas_price : Nat
  estimated_cost : Nat
  estimated_profit : ℚ
  token_path : List Nat
  dex_path : List String
  calldata : List Nat
  use_mev_share : Bool
deriving DecidableEq, Repr

/-- Embeds `validate_transaction` (transaction/mod.rs:71-82): the body is
a placeholder that performs no checks and unconditionally succeeds. -/
def validate_transaction (_tx : ArbitrageTransaction) : Except String Unit :=
  Except.ok ()

/-- The submission side effect `execute_transaction` ends with. -/
inductive Submission
  | mevShare (gas_price : Nat)
  | direct (gas_price : Nat)
deriving DecidableEq, Repr

/-- Embeds `TransactionExecutorImpl::execute_transaction`
(executor.rs:76-111): validate, require a wallet, price the gas, then sign
and submit via MEV-Share or directly; the returned value records which
submission side effect happened. -/
def execute_transaction (has_wallet : Bool) (gas_price : Nat)
    (tx : ArbitrageTransaction) : Except String Submission :=
  match validate_transaction tx with
  | .error e => .error e
  | .ok _ =>
      if has_wallet = false then .error "No wallet available for signing transactions"
      else if tx.use_mev_share then .ok (.mevShare gas_price)
      else .ok (.direct gas_price)

/-- A structurally invalid transaction: empty recipient and zero gas
limit. -/
def invalid_transaction : ArbitrageTransaction :=
  { request := { to_addr := none, gas := some 0 }
    estimated_gas := 0
    estimated_gas_price := 0
    estimated_cost := 0
    estimated_profit := 0
    token_path := []
    dex_path := []
    calldata := []
    use_mev_share := false }

/-- The `TransactionResult` snapshot (transaction/mod.rs:50-68). -/
structure TransactionResult where
  tx_hash : Nat
  block_number : Option Nat
  gas_used : Option Nat
  actual_cost : Option Nat
  success : Bool
  error : Option String
deriving DecidableEq, Repr

/-- The possible ends of the `wait_for_transaction` loop. -/
inductive WaitResult
  | confirmed (r : TransactionResult)
  | timedOut (elapsed_ms : Nat)
  | pollFailed (e : String)
  | stillWaiting
deriving DecidableEq, Repr

/-- Embeds the loop of `TransactionExecutorImpl::wait_for_transaction`
(executor.rs:161-185) over a trace of loop iterations: each entry carries
the elapsed time observed at the top of the iteration and the outcome of
that iteration's `get_transaction_status` call. The loop fails with a
timeout when the observed elapsed time strictly exceeds the caller's
timeout, returns the status as confirmed as soon as it carries an
inclusion block number, propagates a poll error, and otherwise sleeps and
continues; `stillWaiting` marks a trace that ends with the loop still
running. -/
def wait_for_transaction (timeout_ms : Nat) :
    List (Nat × Except String TransactionResult) → WaitResult
  | [] => .stillWaiting
  | (elapsed, poll) :: rest =>
      if timeout_ms < elapsed then .timedOut elapsed
      else
        match poll with
        | .error e => .pollFailed e
        | .ok status =>
            if status.block_number.isSome then .confirmed status
            else wait_for_transaction timeout_ms rest

/-- The pending `TransactionResult` built when no receipt exists yet
(executor.rs:145-155). -/
def pending_status : TransactionResult :=
  { tx_hash := 1
    block_number := none
    gas_used := none
    actual_cost := none
    success := false
    error := some "Transaction pending" }

/-- The prior on-chain transaction record consumed by `cancel_transaction`
(executor.rs:187-230): sender (`tx.from`), nonce and optional gas
price. -/
structure TxRecord where
  sender : Nat
  nonce : Nat
  gas_price : Option Nat
deriving DecidableEq, Repr

/-- The replacement transaction built by `cancel_transaction`
(executor.rs:211-219). -/
structure CancelTx where
  nonce : Nat
  gas_price : Nat
  gas : Nat
  to_addr : Nat
  value : Nat
deriving DecidableEq, Repr

/-- Embeds the replacement gas price computation (executor.rs:204-209):
`tx.gas_price.unwrap_or_default().saturating_mul(120).checked_div(100)
.unwrap_or_default()` ("20% higher"); the division by the nonzero literal
100 never fails, so `unwrap_or_default` is the quotient itself. -/
def cancel_gas_price (orig_gas_price : Option Nat) : Nat :=
  satMul (orig_gas_price.getD 0) 120 / 100

/-- Embeds `TransactionExecutorImpl::cancel_transaction`
(executor.rs:187-230): a zero-value legacy self-transfer at the original
nonce with the bumped gas price and 21000 gas. -/
def cancel_transaction (tx : TxRecord) : CancelTx :=
  { nonce := tx.nonce
    gas_price := cancel_gas_price tx.gas_price
    gas := 21000
    to_addr := tx.sender
    value := 0 }

/-! ## Theorems for claims C1 and C9 -/

/-- A nonempty sample set always has a median. -/
theorem calculate_median_price_isSome {samples : List ℚ} (h : samples ≠ []) :
    ∃ m, calculate_median_price samples = some m := by
  rw [calculate_median_price, if_neg h]
  dsimp only
  split
  · exact ⟨_, rfl⟩
  · exact ⟨_, rfl⟩

/-- Evaluation of the deviation filter at the scenario's samples. -/
theorem scenario_deviation_filter :
    is_price_within_deviation 1 998 1000 = true ∧
    is_price_within_deviation 1 1000 1000 = true ∧
    is_price_within_deviation 1 1050 1000 = false := by
  refine ⟨?_, ?_, ?_⟩ <;> · rw [is_price_within_deviation]; norm_num

/-- C1: per-token price refresh consensus. The consensus price exists
exactly for a nonempty sample set; with the median in hand, the stored
price is the mean of the samples surviving the deviation filter, falling
back to the median itself when every sample is rejected. In the concrete
scenario, samples {998, 1000, 1050} with a 1% deviation threshold have
median 1000, the sample 1050 is rejected while 998 and 1000 survive, and
the stored consensus price is mean(998, 1000) = 999. -/
theorem consensus_price_spec :
    (∀ maxDev samples, (consensus_price maxDev samples).isSome ↔ samples ≠ []) ∧
    (∀ maxDev samples m, calculate_median_price samples = some m →
      (samples.filter (fun p => is_price_within_deviation maxDev p m) = [] →
        consensus_price maxDev samples = some m) ∧
      (∀ f, samples.filter (fun p => is_price_within_deviation maxDev p m) = f → f ≠ [] →
        consensus_price maxDev samples = some (f.sum / (f.length : ℚ)))) ∧
    calculate_median_price [998, 1000, 1050] = some 1000 ∧
    is_price_within_deviation 1 998 1000 = true ∧
    is_price_within_deviation 1 1000 1000 = true ∧
    is_price_within_deviation 1 1050 1000 = false ∧
    consensus_price 1 [998, 1000, 1050] = some 999 := by
  have hmed : calculate_median_price [998, 1000, 1050] = some 1000 := by
    unfold calculate_median_price
    rw [if_neg (by simp)]
    norm_num [List.insertionSort, List.orderedInsert, List.getD]
  have hdev := scenario_deviation_filter
  have hfil : ([998, 1000, 1050] : List ℚ).filter
      (fun p => is_price_within_deviation 1 p 1000) = [998, 1000] := by
    simp [List.filter, hdev.1, hdev.2.1, hdev.2.2]
  refine ⟨?_, ?_, hmed, hdev.1, hdev.2.1, hdev.2.2, ?_⟩
  · intro maxDev samples
    constructor
    · intro h hnil
      subst hnil
      simp [consensus_price, calculate_median_price] at h
    · intro h
      rcases calculate_median_price_isSome h with ⟨m, hm'⟩
      simp [consensus_price, hm']
  · intro maxDev samples m hm
    constructor
    · intro hfil'
      simp [consensus_price, hm, hfil']
    · intro f hf hne
      simp [consensus_price, hm, hf, hne]
  · unfold consensus_price
    rw [hmed]
    dsimp only
    rw [hfil, if_neg (by simp)]
    norm_num

/-- Witness for `consensus_price_spec`: instantiating the general clauses at
the scenario's inputs. -/
theorem consensus_price_spec_witness :
    (consensus_price 1 [998, 1000, 1050]).isSome ∧
    consensus_price 1 [998, 1000, 1050] =
      some (([998, 1000] : List ℚ).sum / (([998, 1000] : List ℚ).length : ℚ)) := by
  have h1 := consensus_price_spec.2.2.2.1
  have h2 := consensus_price_spec.2.2.2.2.1
  have h3 := consensus_price_spec.2.2.2.2.2.1
  have hfil : ([998, 1000, 1050] : List ℚ).filter
      (fun p => is_price_within_deviation 1 p 1000) = [998, 1000] := by
    simp [List.filter, h1, h2, h3]
  refine ⟨(consensus_price_spec.1 1 [998, 1000, 1050]).mpr (by simp), ?_⟩
  exact (consensus_price_spec.2.1 1 [998, 1000, 1050] 1000 consensus_price_spec.2.2.1).2
    [998, 1000] hfil (by simp)

/-- C9 counterexample: the claim says `get_price_in_token` fails exactly
when the quote token's USD price is non-positive, but the code only checks
for an exactly-zero denominator: with quote price −1 (non-positive) the
call succeeds and returns the ratio. -/
theorem get_price_in_token_negative_denominator :
    get_price_in_token 1 (-1) = Except.ok (-1) ∧ (-1 : ℚ) ≤ 0 := by
  constructor
  · rw [get_price_in_token, if_neg (by norm_num)]
    norm_num
  · norm_num

/-- C9 (amended): `get_price_in_token` fails exactly when the quote token's
USD price is zero; for any nonzero quote price (positive or negative) it
returns the ratio `base_price_usd / quote_price_usd`. -/
theorem get_price_in_token_spec :
    ∀ b q : ℚ,
      (q = 0 → get_price_in_token b q = Except.error "Quote token price is zero") ∧
      (q ≠ 0 → get_price_in_token b q = Except.ok (b / q)) := by
  intro b q
  constructor
  · intro h
    simp [get_price_in_token, h]
  · intro h
    simp [get_price_in_token, h]

/-- Witness for `get_price_in_token_spec` at base 6, quote 2. -/
theorem get_price_in_token_spec_witness :
    get_price_in_token 6 2 = Except.ok 3 := by
  have h := (get_price_in_token_spec 6 2).2 (by norm_num)
  rw [h]
  norm_num

/-! ## Theorems for claims C2 and C10 -/

/-- `evaluate_opportunities` always equals the head of the stable
descending sort of the list of opportunities surviving both filters. -/
theorem evaluate_opportunities_eq_head (t : ℚ) (ops : List ArbitrageOpportunity) :
    evaluate_opportunities t ops =
      ((surviving_opportunities t ops).insertionSort net_profit_ge).head? := by
  unfold evaluate_opportunities surviving_opportunities
  by_cases h1 : ops.isEmpty
  · rw [List.isEmpty_iff] at h1
    subst h1
    simp
  · rw [if_neg h1]
    by_cases h2 : (ops.filter (fun op => decide (t < op.net_profit))).isEmpty
    · rw [List.isEmpty_iff] at h2
      simp [h2]
    · rw [if_neg h2]
      by_cases h3 : (((ops.filter (fun op => decide (t < op.net_profit))).map
          adjust_opportunity).filter (fun op => decide (t < op.net_profit))).isEmpty
      · rw [List.isEmpty_iff] at h3
        simp [h3]
      · rw [if_neg h3]

/-- If `evaluate_opportunities` returns `some op`, then `op` is one of the
surviving opportunities. -/
theorem eval_some_mem_surviving {t : ℚ} {ops : List ArbitrageOpportunity}
    {op : ArbitrageOpportunity} (h : evaluate_opportunities t ops = some op) :
    op ∈ surviving_opportunities t ops := by
  rw [evaluate_opportunities_eq_head] at h
  have hmem : op ∈ (surviving_opportunities t ops).insertionSort net_profit_ge := by
    cases hs : (surviving_opportunities t ops).insertionSort net_profit_ge with
    | nil => rw [hs] at h; simp at h
    | cons a l =>
        rw [hs] at h
        simp only [List.head?_cons, Option.some.injEq] at h
        rw [← h]
        exact List.mem_cons_self a l
  exact (List.perm_insertionSort net_profit_ge (surviving_opportunities t ops)).mem_iff.mp hmem

/-- C2: `evaluate_opportunities` returns `none` exactly when no opportunity
survives both the initial threshold filter and the post-gas-recomputation
filter; when it returns an opportunity, that opportunity's recomputed net
profit is strictly above the configured minimum-profit threshold (so never
below it), it is one of the survivors, and it has the highest net profit
among all survivors. -/
theorem evaluate_opportunities_spec :
    ∀ (t : ℚ) (ops : List ArbitrageOpportunity),
      (evaluate_opportunities t ops = none ↔ surviving_opportunities t ops = []) ∧
      (∀ op, evaluate_opportunities t ops = some op →
        t < op.net_profit ∧ op ∈ surviving_opportunities t ops ∧
        ∀ op' ∈ surviving_opportunities t ops, op'.net_profit ≤ op.net_profit) := by
  intro t ops
  have hperm := List.perm_insertionSort net_profit_ge (surviving_opportunities t ops)
  constructor
  · rw [evaluate_opportunities_eq_head]
    rw [List.head?_eq_none_iff]
    constructor
    · intro h
      have h2 := hperm
      rw [h] at h2
      exact h2.symm.eq_nil
    · intro h
      rw [h]
      rfl
  · intro op h
    have hmem := eval_some_mem_surviving h
    have ht : t < op.net_profit := by
      have := List.mem_filter.mp hmem
      exact of_decide_eq_true this.2
    refine ⟨ht, hmem, ?_⟩
    intro op' hop'
    rw [evaluate_opportunities_eq_head] at h
    have hsorted := List.sorted_insertionSort net_profit_ge (surviving_opportunities t ops)
    have hmem' : op' ∈ (surviving_opportunities t ops).insertionSort net_profit_ge :=
      hperm.mem_iff.mpr hop'
    cases hs : (surviving_opportunities t ops).insertionSort net_profit_ge with
    | nil => rw [hs] at hmem'; simp at hmem'
    | cons a l =>
        rw [hs] at h hmem' hsorted
        simp only [List.head?_cons, Option.some.injEq] at h
        subst h
        rcases List.mem_cons.mp hmem' with h' | h'
        · rw [h']
        · exact List.rel_of_sorted_cons hsorted op' h'

/-- Witness for `evaluate_opportunities_spec`: a single opportunity with
net profit 10 against threshold 0 is returned (with its gas cost and net
profit recomputed), and its recomputed net profit is above the
threshold. -/
theorem evaluate_opportunities_spec_witness :
    evaluate_opportunities 0 [sample_opportunity] =
      some (adjust_opportunity sample_opportunity) ∧
    (0 : ℚ) < (adjust_opportunity sample_opportunity).net_profit := by
  have hlt : (0 : ℚ) < sample_opportunity.net_profit := by norm_num [sample_opportunity]
  have hlt2 : (0 : ℚ) < (adjust_opportunity sample_opportunity).net_profit := by
    norm_num [adjust_opportunity, sample_opportunity, evaluation_gas_estimate]
  have heval : evaluate_opportunities 0 [sample_opportunity]
      = some (adjust_opportunity sample_opportunity) := by
    simp [evaluate_opportunities, List.filter, hlt, hlt2, List.insertionSort,
      List.orderedInsert]
  exact ⟨heval, ((evaluate_opportunities_spec 0 [sample_opportunity]).2
    (adjust_opportunity sample_opportunity) heval).1⟩

/-- C10: whenever `evaluate_opportunities` returns an opportunity, it is
one of the input opportunities with only `estimated_gas_cost` and
`net_profit` recomputed; the identity, timestamp, venues, token path,
estimated profit, required loan amount and confidence score are returned
unchanged. -/
theorem evaluate_opportunities_frame :
    ∀ (t : ℚ) (ops : List ArbitrageOpportunity) (op : ArbitrageOpportunity),
      evaluate_opportunities t ops = some op →
      ∃ op0, op0 ∈ ops ∧
        op.id = op0.id ∧ op.timestamp = op0.timestamp ∧
        op.source_dex = op0.source_dex ∧ op.target_dex = op0.target_dex ∧
        op.token_path = op0.token_path ∧
        op.estimated_profit = op0.estimated_profit ∧
        op.required_loan_amount = op0.required_loan_amount ∧
        op.confidence_score = op0.confidence_score ∧
        op.estimated_gas_cost = evaluation_gas_estimate op0.token_path.length ∧
        op.net_profit = op0.estimated_profit -
          evaluation_gas_estimate op0.token_path.length := by
  intro t ops op h
  have hmem := eval_some_mem_surviving h
  unfold surviving_opportunities at hmem
  have hmem2 := (List.mem_filter.mp hmem).1
  rcases List.mem_map.mp hmem2 with ⟨op0, hop0, hadj⟩
  have hop0' : op0 ∈ ops := (List.mem_filter.mp hop0).1
  refine ⟨op0, hop0', ?_⟩
  subst hadj
  simp [adjust_opportunity]

/-- Witness for `evaluate_opportunities_frame` at threshold 0 and the
single-element input list. -/
theorem evaluate_opportunities_frame_witness :
    ∃ op0, op0 ∈ [sample_opportunity] ∧
      (adjust_opportunity sample_opportunity).id = op0.id ∧
      (adjust_opportunity sample_opportunity).timestamp = op0.timestamp ∧
      (adjust_opportunity sample_opportunity).source_dex = op0.source_dex ∧
      (adjust_opportunity sample_opportunity).target_dex = op0.target_dex ∧
      (adjust_opportunity sample_opportunity).token_path = op0.token_path ∧
      (adjust_opportunity sample_opportunity).estimated_profit = op0.estimated_profit ∧
      (adjust_opportunity sample_opportunity).required_loan_amount =
        op0.required_loan_amount ∧
      (adjust_opportunity sample_opportunity).confidence_score = op0.confidence_score ∧
      (adjust_opportunity sample_opportunity).estimated_gas_cost =
        evaluation_gas_estimate op0.token_path.length ∧
      (adjust_opportunity sample_opportunity).net_profit = op0.estimated_profit -
        evaluation_gas_estimate op0.token_path.length := by
  have hlt : (0 : ℚ) < sample_opportunity.net_profit := by norm_num [sample_opportunity]
  have hlt2 : (0 : ℚ) < (adjust_opportunity sample_opportunity).net_profit := by
    norm_num [adjust_opportunity, sample_opportunity, evaluation_gas_estimate]
  have heval : evaluate_opportunities 0 [sample_opportunity]
      = some (adjust_opportunity sample_opportunity) := by
    simp [evaluate_opportunities, List.filter, hlt, hlt2, List.insertionSort,
      List.orderedInsert]
  exact evaluate_opportunities_frame 0 [sample_opportunity]
    (adjust_opportunity sample_opportunity) heval

/-! ## Theorems for claim C3 -/

/-- The final clamp of `calculate_expected_profit` never produces a
negative value. -/
theorem finish_profit_nonneg {env : ProfitEnv} {ft d pit : Nat} {gas v : ℚ}
    (h : finish_profit env ft d pit gas = some v) : 0 ≤ v := by
  unfold finish_profit at h
  split at h
  · exact absurd h (by simp)
  · split at h
    · exact absurd h (by simp)
    · simp only [Option.some.injEq] at h
      subst h
      split
      next h0 => exact le_of_lt h0
      next h0 => exact le_refl 0

/-- C3: `calculate_expected_profit` never returns a negative value; a
circular path whose simulated final amount does not exceed the input
amount yields exactly 0; the net-profit clamp yields exactly 0 whenever
the USD profit minus the modeled gas cost is non-positive; and a
non-circular path whose final USD value does not exceed the initial USD
value yields exactly 0. -/
theorem calculate_expected_profit_spec :
    (∀ env path amount v,
      calculate_expected_profit env path amount = some v → 0 ≤ v) ∧
    (∀ env path amount input fin ds,
      2 ≤ path.length →
      parse_units amount (env.decimals path.headI) = some input →
      simulate_hops env.find_best_quote input path = some (fin, ds) →
      path.headI = path.getLastD 0 →
      fin ≤ input →
      calculate_expected_profit env path amount = some 0) ∧
    (∀ env ft d pit gas p,
      env.price_usd ft = some p →
      pit < 2 ^ 128 →
      format_units pit d * p - gas ≤ 0 →
      finish_profit env ft d pit gas = some 0) ∧
    (∀ env path amount input fin ds pf p0,
      2 ≤ path.length →
      parse_units amount (env.decimals path.headI) = some input →
      simulate_hops env.find_best_quote input path = some (fin, ds) →
      path.headI ≠ path.getLastD 0 →
      env.price_usd (path.getLastD 0) = some pf →
      env.price_usd path.headI = some p0 →
      0 < p0 →
      fin < 2 ^ 128 →
      format_units fin (env.decimals (path.getLastD 0)) * pf ≤ amount * p0 →
      calculate_expected_profit env path amount = some 0) := by
  refine ⟨?_, ?_, ?_, ?_⟩
  · intro env path amount v h
    simp only [calculate_expected_profit] at h
    split at h
    · exact absurd h (by simp)
    · cases hp : parse_units amount (env.decimals path.headI) with
      | none => rw [hp] at h; exact absurd h (by simp)
      | some input =>
          rw [hp] at h
          dsimp only at h
          cases hs : simulate_hops env.find_best_quote input path with
          | none => rw [hs] at h; exact absurd h (by simp)
          | some pr =>
              obtain ⟨fin, ds⟩ := pr
              rw [hs] at h
              dsimp only at h
              by_cases hcirc : path.headI = path.getLastD 0
              · rw [if_pos hcirc] at h
                by_cases hgain : input < fin
                · rw [if_pos hgain] at h
                  exact finish_profit_nonneg h
                · rw [if_neg hgain] at h
                  simp only [Option.some.injEq] at h
                  subst h; norm_num
              · rw [if_neg hcirc] at h
                cases hpf : env.price_usd (path.getLastD 0) with
                | none => rw [hpf] at h; dsimp only at h; exact absurd h (by simp)
                | some pf =>
                    cases hp0 : env.price_usd path.headI with
                    | none => rw [hpf, hp0] at h; dsimp only at h; exact absurd h (by simp)
                    | some p0 =>
                        rw [hpf, hp0] at h
                        dsimp only at h
                        by_cases hneg : p0 ≤ 0
                        · rw [if_pos hneg] at h; exact absurd h (by simp)
                        · rw [if_neg hneg] at h
                          by_cases hbig : 2 ^ 128 ≤ fin
                          · rw [if_pos hbig] at h; exact absurd h (by simp)
                          · rw [if_neg hbig] at h
                            by_cases hval : amount * p0 <
                                format_units fin (env.decimals (path.getLastD 0)) * pf
                            · rw [if_pos hval] at h
                              cases hp2 : parse_units
                                  ((format_units fin (env.decimals (path.getLastD 0)) * pf -
                                    amount * p0) / p0) (env.decimals path.headI) with
                              | none => rw [hp2] at h; exact absurd h (by simp)
                              | some pit =>
                                  rw [hp2] at h
                                  dsimp only at h
                                  exact finish_profit_nonneg h
                            · rw [if_neg hval] at h
                              simp only [Option.some.injEq] at h
                              subst h; norm_num
  · intro env path amount input fin ds hlen hparse hsim hcirc hle
    have hnlt : ¬ path.length < 2 := by omega
    simp only [calculate_expected_profit]
    rw [if_neg hnlt, hparse]
    try dsimp only
    rw [hsim]
    try dsimp only
    rw [if_pos hcirc, if_neg (not_lt.mpr hle)]
  · intro env ft d pit gas p hp hlt hnet
    simp only [finish_profit]
    rw [hp]
    try dsimp only
    rw [if_neg (not_le.mpr hlt)]
    try dsimp only
    rw [if_neg (not_lt.mpr hnet)]
  · intro env path amount input fin ds pf p0 hlen hparse hsim hnc hpf hp0 hp0pos hfin hle
    have hnlt : ¬ path.length < 2 := by omega
    simp only [calculate_expected_profit]
    rw [if_neg hnlt, hparse]
    try dsimp only
    rw [hsim]
    try dsimp only
    rw [if_neg hnc, hpf, hp0]
    try dsimp only
    rw [if_neg (not_le.mpr hp0pos), if_neg (not_le.mpr hfin), if_neg (not_lt.mpr hle)]

/-- Witness for `calculate_expected_profit_spec`: the circular path
1 → 2 → 1 under identity quotes gains nothing and the estimate is
exactly 0, which is non-negative. -/
theorem calculate_expected_profit_spec_witness :
    calculate_expected_profit sample_env [1, 2, 1] 5 = some 0 ∧ (0 : ℚ) ≤ 0 := by
  have hparse : parse_units 5 0 = some 5 := by
    rw [parse_units, if_neg (by norm_num)]
    norm_num
    decide
  have hsim : simulate_hops sample_env.find_best_quote 5 [1, 2, 1]
      = some (5, [DexType.UniswapV2, DexType.UniswapV2]) := rfl
  have h := calculate_expected_profit_spec.2.1 sample_env [1, 2, 1] 5 5 5
    [DexType.UniswapV2, DexType.UniswapV2] (by norm_num) hparse hsim rfl le_rfl
  exact ⟨h, calculate_expected_profit_spec.1 sample_env [1, 2, 1] 5 0 h⟩

/-! ## Theorems for claim C4 -/

/-- Every block number emitted by the polling loop strictly exceeds the
`last_block_number` the loop started from. -/
theorem poll_emit_mem_gt :
    ∀ (heights : List Nat) (last b : Nat), b ∈ poll_emit last heights → last < b := by
  intro heights
  induction heights with
  | nil => intro last b hb; simp [poll_emit] at hb
  | cons h t ih =>
      intro last b hb
      rw [poll_emit] at hb
      split at hb
      · rcases List.mem_cons.mp hb with rfl | hb'
        · assumption
        · exact lt_trans (by assumption) (ih h b hb')
      · exact ih last b hb

/-- C4 counterexample: the push-subscription path forwards the stream's
block numbers verbatim, so a stream that repeats block 5 makes the feed
deliver block 5 twice — neither strictly increasing nor duplicate-free,
contradicting the claim for the push path. -/
theorem push_emit_duplicate :
    push_emit [some 5, some 5] = [5, 5] ∧
    ¬ List.Chain' (fun a b => a < b) ([5, 5] : List Nat) ∧
    ¬ ([5, 5] : List Nat).Nodup := by
  refine ⟨rfl, ?_, by decide⟩
  intro h
  rcases List.chain'_cons.mp h with ⟨h5, _⟩
  exact lt_irrefl 5 h5

/-- C4 (amended): on the HTTP-polling fallback path the feed emits a
strictly increasing, duplicate-free sequence of block numbers, each
strictly above the initial height; the push-subscription path preserves
the stream's arrival order but performs no deduplication or ordering
check, forwarding each block's number (defaulting to 0 when absent)
verbatim to the single sequential consumer. -/
theorem block_feed_ordering :
    ∀ (last_block_number : Nat) (heights : List Nat),
      List.Chain' (· < ·) (poll_emit last_block_number heights) ∧
      (∀ b ∈ poll_emit last_block_number heights, last_block_number < b) ∧
      (poll_emit last_block_number heights).Nodup ∧
      ∀ blocks : List (Option Nat), push_emit blocks = blocks.map (fun b => b.getD 0) := by
  have hchain : ∀ (heights : List Nat) (last : Nat),
      List.Chain' (· < ·) (poll_emit last heights) := by
    intro heights
    induction heights with
    | nil => intro last; simp [poll_emit]
    | cons h t ih =>
        intro last
        rw [poll_emit]
        split
        · rw [List.chain'_cons']
          exact ⟨fun b hb => poll_emit_mem_gt t h b (List.mem_of_mem_head? hb), ih h⟩
        · exact ih last
  intro last heights
  refine ⟨hchain heights last, fun b hb => poll_emit_mem_gt heights last b hb, ?_,
    fun _ => rfl⟩
  have hpair := (List.chain'_iff_pairwise).mp (hchain heights last)
  exact hpair.imp (fun hab => ne_of_lt hab)

/-- Witness for `block_feed_ordering`: polling heights 1, 1, 2 from initial
height 0 emits [1, 2]. -/
theorem block_feed_ordering_witness :
    List.Chain' (· < ·) (poll_emit 0 [1, 1, 2]) ∧ 0 < 1 := by
  refine ⟨(block_feed_ordering 0 [1, 1, 2]).1, ?_⟩
  exact (block_feed_ordering 0 [1, 1, 2]).2.1 1 (by simp [poll_emit])

/-! ## Theorems for claim C5 -/

/-- C5 counterexample: cancelling a transaction whose gas price is 1 wei
produces a replacement with the identical nonce but gas price
⌊1·120/100⌋ = 1 — not at least 20% higher than the original (it is not
higher at all). -/
theorem cancel_transaction_not_twenty_percent :
    (cancel_transaction { sender := 1, nonce := 7, gas_price := some 1 }).nonce = 7 ∧
    (cancel_transaction { sender := 1, nonce := 7, gas_price := some 1 }).gas_price = 1 ∧
    ¬ 120 * 1 ≤
      100 * (cancel_transaction { sender := 1, nonce := 7, gas_price := some 1 }).gas_price := by
  have hg : (cancel_transaction { sender := 1, nonce := 7, gas_price := some 1 }).gas_price
      = 1 := by
    show satMul 1 120 / 100 = 1
    rw [satMul, U256MAX]
    norm_num
  refine ⟨rfl, hg, ?_⟩
  rw [hg]
  norm_num

/-- C5 (amended): `cancel_transaction` builds a replacement with the
identical nonce, zero value, the original sender as recipient and 21000
gas; its gas price is `⌊min(orig·120, U256::MAX)/100⌋` with `orig` read as
0 when absent — i.e. 120% of the original rounded down, which is at least
(exactly) 20% higher only when the original gas price is a multiple of 5
(and no saturation occurs). -/
theorem cancel_transaction_spec :
    ∀ tx : TxRecord,
      (cancel_transaction tx).nonce = tx.nonce ∧
      (cancel_transaction tx).value = 0 ∧
      (cancel_transaction tx).to_addr = tx.sender ∧
      (cancel_transaction tx).gas = 21000 ∧
      (cancel_transaction tx).gas_price = min (tx.gas_price.getD 0 * 120) U256MAX / 100 ∧
      (tx.gas_price.getD 0 * 120 ≤ U256MAX → 5 ∣ tx.gas_price.getD 0 →
        100 * (cancel_transaction tx).gas_price = 120 * tx.gas_price.getD 0) := by
  intro tx
  refine ⟨rfl, rfl, rfl, rfl, rfl, ?_⟩
  intro hle hdvd
  obtain ⟨k, hk⟩ := hdvd
  show 100 * (satMul (tx.gas_price.getD 0) 120 / 100) = 120 * tx.gas_price.getD 0
  rw [satMul, min_eq_left hle, hk]
  omega

/-- Witness for `cancel_transaction_spec` at an original gas price of
5 wei: the replacement price is exactly 20% higher (6 wei). -/
theorem cancel_transaction_spec_witness :
    (cancel_transaction { sender := 2, nonce := 9, gas_price := some 5 }).nonce = 9 ∧
    100 * (cancel_transaction { sender := 2, nonce := 9, gas_price := some 5 }).gas_price
      = 120 * 5 := by
  have h := cancel_transaction_spec { sender := 2, nonce := 9, gas_price := some 5 }
  refine ⟨h.1, ?_⟩
  have h6 := h.2.2.2.2.2 (by norm_num [U256MAX]) (by norm_num)
  simpa using h6

/-! ## Theorems for claims C6, C7 and C8 -/

/-- C6: for every strategy and every cached fee state,
`get_optimal_gas_price` never exceeds the configured ceiling
(`max_gas_price` gwei converted to wei): the Fixed strategy returns the
ceiling itself, EIP-1559 returns the base-fee-times-multiplier-plus-
priority-fee estimate capped at the ceiling, and Dynamic returns the live
estimate capped at the ceiling. -/
theorem get_optimal_gas_price_spec :
    ∀ (strategy : GasStrategy) (maxGwei mult100 : Nat) (st : GasState),
      get_optimal_gas_price strategy maxGwei mult100 st ≤ max_gas_price_wei maxGwei ∧
      (strategy = GasStrategy.Fixed →
        get_optimal_gas_price strategy maxGwei mult100 st = max_gas_price_wei maxGwei) ∧
      (strategy = GasStrategy.Eip1559 →
        get_optimal_gas_price strategy maxGwei mult100 st =
          min (eip1559_max_fee st.current_base_fee st.current_priority_fee mult100)
            (max_gas_price_wei maxGwei)) ∧
      (strategy = GasStrategy.Dynamic →
        get_optimal_gas_price strategy maxGwei mult100 st =
          min st.current_gas_price (max_gas_price_wei maxGwei)) := by
  intro strategy maxGwei mult100 st
  cases strategy with
  | Fixed =>
      refine ⟨le_refl _, fun _ => rfl, ?_, ?_⟩
      · intro h; exact GasStrategy.noConfusion h
      · intro h; exact GasStrategy.noConfusion h
  | Eip1559 =>
      refine ⟨min_le_right _ _, ?_, fun _ => rfl, ?_⟩
      · intro h; exact GasStrategy.noConfusion h
      · intro h; exact GasStrategy.noConfusion h
  | Dynamic =>
      refine ⟨min_le_right _ _, ?_, ?_, fun _ => rfl⟩
      · intro h; exact GasStrategy.noConfusion h
      · intro h; exact GasStrategy.noConfusion h

/-- Witness for `get_optimal_gas_price_spec`: with a 100 gwei ceiling, the
Fixed strategy returns exactly the ceiling in wei. -/
theorem get_optimal_gas_price_spec_witness :
    get_optimal_gas_price GasStrategy.Fixed 100 120
        { current_gas_price := 7, current_base_fee := 3, current_priority_fee := 2 }
      = max_gas_price_wei 100 ∧
    get_optimal_gas_price GasStrategy.Dynamic 100 120
        { current_gas_price := 7, current_base_fee := 3, current_priority_fee := 2 }
      ≤ max_gas_price_wei 100 := by
  constructor
  · exact (get_optimal_gas_price_spec GasStrategy.Fixed 100 120
      { current_gas_price := 7, current_base_fee := 3, current_priority_fee := 2 }).2.1 rfl
  · exact (get_optimal_gas_price_spec GasStrategy.Dynamic 100 120
      { current_gas_price := 7, current_base_fee := 3, current_priority_fee := 2 }).1

/-- C7: `wait_for_transaction` returns a confirmed result only when the
fetched status carries an inclusion block number; a timeout failure is
returned only when the observed elapsed time strictly exceeds the
caller-supplied timeout (so never before the timeout elapses); and for a
transaction that is never mined (every poll returns a pending status with
no block number) whose trace reaches an elapsed time beyond the timeout,
the loop fails with a timeout error at an elapsed time beyond the
timeout. -/
theorem wait_for_transaction_spec :
    ∀ (timeout_ms : Nat) (trace : List (Nat × Except String TransactionResult)),
      (∀ r, wait_for_transaction timeout_ms trace = WaitResult.confirmed r →
        r.block_number.isSome) ∧
      (∀ e, wait_for_transaction timeout_ms trace = WaitResult.timedOut e →
        timeout_ms < e) ∧
      ((∀ p ∈ trace, ∃ st, p.2 = Except.ok st ∧ st.block_number = none) →
        (∃ p ∈ trace, timeout_ms < p.1) →
        ∃ e, wait_for_transaction timeout_ms trace = WaitResult.timedOut e ∧
          timeout_ms < e) := by
  intro timeout_ms trace
  induction trace with
  | nil =>
      refine ⟨?_, ?_, ?_⟩
      · intro r h; exact WaitResult.noConfusion h
      · intro e h; exact WaitResult.noConfusion h
      · intro _ hex; obtain ⟨p, hp, _⟩ := hex; simp at hp
  | cons hd tl ih =>
      obtain ⟨elapsed, poll⟩ := hd
      refine ⟨?_, ?_, ?_⟩
      · intro r h
        cases poll with
        | error e =>
            rw [wait_for_transaction] at h
            split at h
            · exact WaitResult.noConfusion h
            · exact WaitResult.noConfusion h
        | ok status =>
            rw [wait_for_transaction] at h
            split at h
            · exact WaitResult.noConfusion h
            · by_cases hb : status.block_number.isSome
              · rw [if_pos hb] at h
                cases h
                exact hb
              · rw [if_neg hb] at h
                exact ih.1 r h
      · intro e h
        cases poll with
        | error e2 =>
            rw [wait_for_transaction] at h
            split at h
            · cases h
              assumption
            · exact WaitResult.noConfusion h
        | ok status =>
            rw [wait_for_transaction] at h
            split at h
            · cases h
              assumption
            · by_cases hb : status.block_number.isSome
              · rw [if_pos hb] at h
                exact WaitResult.noConfusion h
              · rw [if_neg hb] at h
                exact ih.2.1 e h
      · intro hall hex
        obtain ⟨st, hpoll, hbn⟩ := hall (elapsed, poll) (List.mem_cons_self _ _)
        simp only at hpoll
        subst hpoll
        by_cases ht : timeout_ms < elapsed
        · refine ⟨elapsed, ?_, ht⟩
          rw [wait_for_transaction, if_pos ht]
        · obtain ⟨p, hp, hpt⟩ := hex
          rcases List.mem_cons.mp hp with rfl | hp'
          · exact absurd hpt ht
          · obtain ⟨e, he, het⟩ := ih.2.2
              (fun q hq => hall q (List.mem_cons_of_mem _ hq)) ⟨p, hp', hpt⟩
            refine ⟨e, ?_, het⟩
            rw [wait_for_transaction, if_neg ht]
            rw [if_neg (by simp [hbn])]
            exact he

/-- Witness for `wait_for_transaction_spec`: a 2000 ms timeout against a
transaction that is never mined, polled at 0, 1000 and 2001 ms, fails with
a timeout at an elapsed time beyond 2000 ms. -/
theorem wait_for_transaction_spec_witness :
    ∃ e, wait_for_transaction 2000
        [(0, Except.ok pending_status), (1000, Except.ok pending_status),
         (2001, Except.ok pending_status)] = WaitResult.timedOut e ∧ 2000 < e := by
  refine (wait_for_transaction_spec 2000 _).2.2 ?_ ?_
  · intro p hp
    simp only [List.mem_cons, List.not_mem_nil, or_false] at hp
    rcases hp with rfl | rfl | rfl <;> exact ⟨pending_status, rfl, rfl⟩
  · exact ⟨(2001, Except.ok pending_status), by simp, by norm_num⟩

/-- C8: the claim says a transaction violating the structural invariants
(empty recipient, zero gas limit) is rejected before anything is signed or
sent; but `validate_transaction` is an unconditional placeholder, so the
invalid transaction passes validation and `execute_transaction` proceeds
to sign and submit it. -/
theorem validate_transaction_accepts_invalid :
    validate_transaction invalid_transaction = Except.ok () ∧
    invalid_transaction.request.to_addr = none ∧
    invalid_transaction.request.gas = some 0 ∧
    execute_transaction true 5 invalid_transaction = Except.ok (Submission.direct 5) := by
  exact ⟨rfl, rfl, rfl, rfl⟩
